import Mathlib

/-!
Verification development for the mem0-healthcare-agent turn-processing pipeline.

Shallow embedding of:
  * `lib/chat-storage.ts` — the transcript store (`createChat`, `saveChat`) over the
    `chats` SQLite table of `lib/db.ts` (modelled as a list of rows; `JSON.stringify`
    of the message list is modelled as the list itself, `NULL`able columns as `Option`);
  * `app/api/chat/route.ts` — the chat `POST` handler, modelled as a function from the
    inbound body and an environment (outcomes of the external collaborators) to the
    sequence of external-call events it performs plus the response it returns.

JavaScript string operations are modelled on Lean `String`: `slice(0, 200)` as
`String.take 200` (code-unit vs. character granularity is immaterial to the claims),
`join(sep)` as `String.intercalate sep`, `trim()` as the explicit `jsTrim` below
(whitespace stripped from both ends), and string truthiness (`""` is falsy) as an
explicit emptiness test.
-/

namespace HealthcareAgent

/-- A typed content part of a UI message; the core only interprets parts whose
`type` field is the string `text`. -/
structure UIPart where
  type : String
  text : String
  deriving DecidableEq, Repr

/-- A UI message: a `role` tag (`user` / `assistant` / ...) and typed content parts. -/
structure UIMessage where
  role : String
  parts : List UIPart
  deriving DecidableEq, Repr

/-- One row of the `chats` table created in `lib/db.ts`.  Columns `role`, `patientId`,
`title`, `lastMessage` are nullable; `messages` is the serialized message sequence. -/
structure ChatRow where
  id : String
  role : Option String
  patientId : Option String
  title : Option String
  createdAt : Nat
  updatedAt : Nat
  lastMessage : Option String
  messages : List UIMessage
  deriving DecidableEq, Repr

/-- The `chats` table (id is the primary key; the API below never creates duplicates). -/
abbrev Db := List ChatRow

/-- `SELECT ... FROM chats WHERE id = ?` (first row with the given id). -/
def findRow (db : Db) (chatId : String) : Option ChatRow :=
  db.find? (fun r => r.id == chatId)

/-- Argument record of `saveChat` in `lib/chat-storage.ts` (`role` and `patientId`
are optional there). -/
structure SaveChatArgs where
  chatId : String
  messages : List UIMessage
  role : Option String
  patientId : Option String
  deriving DecidableEq, Repr

/-- SQL `COALESCE(new, old)` as used by the `UPDATE` statement of `saveChat`. -/
def coalesce (new old : Option String) : Option String :=
  match new with
  | some v => some v
  | none => old

/-- The `lastText` computation in `saveChat`: text parts of the final message,
joined with a space and truncated to 200 units; `NULL` when there is no final
message (JS: `messages[messages.length - 1]?.parts...`). -/
def mkLastText (messages : List UIMessage) : Option String :=
  match messages.getLast? with
  | none => none
  | some m =>
      some ((String.intercalate " "
        ((m.parts.filter (fun p => p.type == "text")).map (fun p => p.text))).take 200)

/-- JS truthiness of an optional string: `undefined` and `""` are falsy. -/
def truthyStr : Option String → Bool
  | none => false
  | some s => s != ""

/-- The `title` derivation in `saveChat`:
`role && patientId ? role + " ↔ Patient " + patientId : null`. -/
def mkTitle (role patientId : Option String) : Option String :=
  if truthyStr role && truthyStr patientId then
    some ((role.getD "") ++ " ↔ Patient " ++ (patientId.getD ""))
  else
    none

/-- The `INSERT` branch of `saveChat`: a fresh row with all supplied fields and
`createdAt = updatedAt = now`. -/
def insertRow (now : Nat) (a : SaveChatArgs) : ChatRow :=
  { id := a.chatId
    role := a.role
    patientId := a.patientId
    title := mkTitle a.role a.patientId
    createdAt := now
    updatedAt := now
    lastMessage := mkLastText a.messages
    messages := a.messages }

/-- The `UPDATE` branch of `saveChat`: `role`/`patientId`/`title` via
`COALESCE(?, existing)`, `updatedAt`/`lastMessage`/`messages` unconditionally. -/
def updateRow (now : Nat) (a : SaveChatArgs) (r : ChatRow) : ChatRow :=
  { r with
    role := coalesce a.role r.role
    patientId := coalesce a.patientId r.patientId
    title := coalesce (mkTitle a.role a.patientId) r.title
    updatedAt := now
    lastMessage := mkLastText a.messages
    messages := a.messages }

/-- `saveChat` of `lib/chat-storage.ts`: look up the row by id, then insert a fresh
row or update the existing one. -/
def saveChat (db : Db) (now : Nat) (a : SaveChatArgs) : Db :=
  match findRow db a.chatId with
  | none => db ++ [insertRow now a]
  | some _ => db.map (fun r => if r.id == a.chatId then updateRow now a r else r)

/-- `createChat` of `lib/chat-storage.ts`: `INSERT OR IGNORE` of a row holding only
the (generated) id, timestamps and an empty message list; all other columns `NULL`.
The generated id is taken as a parameter. -/
def createChat (db : Db) (id : String) (now : Nat) : Db :=
  match findRow db id with
  | some _ => db
  | none =>
      db ++ [{ id := id, role := none, patientId := none, title := none,
               createdAt := now, updatedAt := now, lastMessage := none, messages := [] }]

theorem updateRow_id (now : Nat) (a : SaveChatArgs) (r : ChatRow) :
    (updateRow now a r).id = r.id := rfl

theorem find?_append_singleton_of_none {α : Type} (l : List α) (p : α → Bool) (y : α)
    (h : l.find? p = none) (hy : p y = true) :
    (l ++ [y]).find? p = some y := by
  induction l with
  | nil => simp [List.find?, hy]
  | cons x xs ih =>
      cases hx : p x with
      | true => simp [List.find?_cons_of_pos _ hx] at h
      | false =>
          rw [List.find?_cons_of_neg _ (by simp [hx])] at h
          rw [List.cons_append, List.find?_cons_of_neg _ (by simp [hx])]
          exact ih h

theorem find?_map_of_some {α : Type} (l : List α) (p : α → Bool) (f : α → α) (r : α)
    (h : l.find? p = some r)
    (hpres : ∀ x, p (f x) = p x) :
    (l.map (fun x => if p x then f x else x)).find? p = some (f r) := by
  induction l with
  | nil => simp [List.find?] at h
  | cons x xs ih =>
      rw [List.map_cons]
      cases hx : p x with
      | true =>
          rw [List.find?_cons_of_pos _ hx] at h
          simp only [Option.some.injEq] at h
          subst h
          have hred : (if true = true then f x else x) = f x := if_pos rfl
          rw [hred, List.find?_cons_of_pos]
          rw [hpres]
          exact hx
      | false =>
          rw [List.find?_cons_of_neg _ (by simp [hx])] at h
          rw [if_neg (by simp [hx]), List.find?_cons_of_neg _ (by simp [hx])]
          exact ih h

theorem findRow_saveChat_insert (db : Db) (now : Nat) (a : SaveChatArgs)
    (h : findRow db a.chatId = none) :
    findRow (saveChat db now a) a.chatId = some (insertRow now a) := by
  unfold saveChat
  rw [h]
  exact find?_append_singleton_of_none db _ _ h (by simp [insertRow])

theorem findRow_saveChat_update (db : Db) (now : Nat) (a : SaveChatArgs) (r : ChatRow)
    (h : findRow db a.chatId = some r) :
    findRow (saveChat db now a) a.chatId = some (updateRow now a r) := by
  unfold saveChat
  rw [h]
  exact find?_map_of_some db _ _ r h (fun x => by rw [updateRow_id])

/-- After any `saveChat`, a row for the saved chat id is present, and it is the
inserted (resp. updated) row according to whether the id was previously stored. -/
theorem findRow_saveChat_self (db : Db) (now : Nat) (a : SaveChatArgs) :
    findRow (saveChat db now a) a.chatId =
      some (match findRow db a.chatId with
            | none => insertRow now a
            | some r => updateRow now a r) := by
  cases h : findRow db a.chatId with
  | none => rw [findRow_saveChat_insert db now a h]
  | some r => rw [findRow_saveChat_update db now a r h]

theorem coalesce_idem (x y : Option String) :
    coalesce x (coalesce x y) = coalesce x y := by
  cases x <;> rfl

theorem coalesce_self (x : Option String) : coalesce x x = x := by
  cases x <;> rfl

/-- C6: on a `saveChat` call for an already-stored conversation id, the message
sequence, `lastMessage` preview and `updatedAt` are replaced unconditionally, while
`role`, `patientId` and the derived `title` are replaced only when a non-null new
value is supplied (`COALESCE(new, existing)`); in particular, `createChat` followed
by an upsert with `role = "doctor"`, `patientId = "p1"` yields a stored record with
both identity fields set and the original id and `createdAt` preserved. -/
theorem saveChat_upsert_merge_semantics :
    (∀ (db : Db) (now : Nat) (a : SaveChatArgs) (r : ChatRow),
      findRow db a.chatId = some r →
      findRow (saveChat db now a) a.chatId =
        some { id := r.id
               role := coalesce a.role r.role
               patientId := coalesce a.patientId r.patientId
               title := coalesce (mkTitle a.role a.patientId) r.title
               createdAt := r.createdAt
               updatedAt := now
               lastMessage := mkLastText a.messages
               messages := a.messages })
    ∧ (∀ (id : String) (n1 n2 : Nat) (msgs : List UIMessage),
      findRow (saveChat (createChat [] id n1) n2
          { chatId := id, messages := msgs, role := some "doctor", patientId := some "p1" }) id =
        some { id := id
               role := some "doctor"
               patientId := some "p1"
               title := some "doctor ↔ Patient p1"
               createdAt := n1
               updatedAt := n2
               lastMessage := mkLastText msgs
               messages := msgs }) := by
  constructor
  · intro db now a r h
    rw [findRow_saveChat_update db now a r h]
    rfl
  · intro id n1 n2 msgs
    have h0 : findRow (createChat [] id n1) id =
        some { id := id, role := none, patientId := none, title := none,
               createdAt := n1, updatedAt := n1, lastMessage := none, messages := [] } := by
      simp [createChat, findRow, List.find?]
    have h1 := findRow_saveChat_update (createChat [] id n1) n2
      { chatId := id, messages := msgs, role := some "doctor", patientId := some "p1" } _ h0
    rw [h1]
    have ht : mkTitle (some "doctor") (some "p1") = some "doctor ↔ Patient p1" := by decide
    simp [updateRow, coalesce, ht]

/-- C6 witness: a concrete creation-then-upsert run through `saveChat`. -/
theorem saveChat_upsert_merge_semantics_witness :
    findRow (createChat [] "c1" 10) "c1" =
      some { id := "c1", role := none, patientId := none, title := none,
             createdAt := 10, updatedAt := 10, lastMessage := none, messages := [] }
    ∧ findRow (saveChat (createChat [] "c1" 10) 20
        { chatId := "c1", messages := [], role := some "doctor", patientId := some "p1" }) "c1" =
      some { id := "c1", role := some "doctor", patientId := some "p1",
             title := some "doctor ↔ Patient p1", createdAt := 10, updatedAt := 20,
             lastMessage := none, messages := [] } := by
  constructor
  · decide
  · have h := saveChat_upsert_merge_semantics.1 (createChat [] "c1" 10) 20
      { chatId := "c1", messages := [], role := some "doctor", patientId := some "p1" }
      { id := "c1", role := none, patientId := none, title := none,
        createdAt := 10, updatedAt := 10, lastMessage := none, messages := [] } (by decide)
    rw [h]
    decide

/-- C7: calling `saveChat` twice with identical arguments leaves the stored row
unchanged except for the `updatedAt` timestamp. -/
theorem saveChat_idempotent_up_to_timestamp (db : Db) (t1 t2 : Nat) (a : SaveChatArgs) :
    findRow (saveChat (saveChat db t1 a) t2 a) a.chatId =
      (findRow (saveChat db t1 a) a.chatId).map (fun r => { r with updatedAt := t2 }) := by
  cases h : findRow db a.chatId with
  | none =>
      rw [findRow_saveChat_update _ t2 a _ (findRow_saveChat_insert db t1 a h),
        findRow_saveChat_insert db t1 a h]
      simp [updateRow, insertRow, coalesce_self]
  | some r =>
      rw [findRow_saveChat_update _ t2 a _ (findRow_saveChat_update db t1 a r h),
        findRow_saveChat_update db t1 a r h]
      simp [updateRow, coalesce_idem]

/-- JS `trim()`: strip leading and trailing whitespace (spelled out on the character
list so that it is computable by the kernel). -/
def jsTrim (s : String) : String :=
  String.mk (((s.data.dropWhile Char.isWhitespace).reverse.dropWhile
    Char.isWhitespace).reverse)

/-- `getLastUserText` of `app/api/chat/route.ts`: the text parts of the most recent
`user` message, joined with spaces and trimmed; `undefined` when no user message
exists. -/
def getLastUserText (messages : List UIMessage) : Option String :=
  match messages.reverse.find? (fun m => m.role == "user") with
  | none => none
  | some lastUser =>
      some (jsTrim (String.intercalate " "
        ((lastUser.parts.filter (fun p => p.type == "text")).map (fun p => p.text))))

/-- `uiMessageToText` of `app/api/chat/route.ts`: plain text of one message for the
fact-graph submission. -/
def uiMessageToText (m : UIMessage) : String :=
  jsTrim (String.intercalate " "
    ((m.parts.filter (fun p => p.type == "text")).map (fun p => p.text)))

/-- One entry of `searchResults.results` as consumed by the route (`r.memory`). -/
structure SearchResult where
  memory : Option String
  deriving DecidableEq, Repr

/-- `memorySnippets` in the route: the defined, non-empty `memory` fields rendered
as a dashed list. -/
def memorySnippets (results : Option (List SearchResult)) : String :=
  match results with
  | none => ""
  | some rs =>
      String.intercalate "\n"
        ((((rs.map (fun r => r.memory)).filterMap id).filter (fun m => m != "")).map
          (fun m => "- " ++ m))

/-- The memory-error marker interpolated into the prompt on a failed search. -/
def errNote (reason : String) : String :=
  "⚠️ Memory System Error: " ++ reason ++ "\nProceeding without historical context."

/-- The formatted fact-list section (`memoryContext` when snippets are non-empty). -/
def histNote (snippets : String) : String :=
  "\n📋 Patient History (from Neo4j graph memory):\n" ++ snippets ++ "\n"

/-- The no-history marker used when no error occurred and no context was built. -/
def noHistNote : String :=
  "📋 No previous patient history found in Neo4j graph memory."

/-- `memoryContext` after a successful search: the fact list when snippets are
non-empty, otherwise left as the empty string. -/
def memoryContextOf (results : Option (List SearchResult)) : String :=
  if memorySnippets results != "" then histNote (memorySnippets results) else ""

/-- `memoryNote` in the route: `memoryError ? errNote : memoryContext ? memoryContext
: noHistNote` (JS string truthiness). -/
def memoryNote (memoryError : Option String) (memoryContext : String) : String :=
  match memoryError with
  | some e => errNote e
  | none => if memoryContext != "" then memoryContext else noHistNote

/-- The memory note a turn actually uses: search is performed only for truthy
`lastUserText`; a thrown search error is caught and becomes `memoryError`. -/
def turnMemoryNote (lastUserText : Option String)
    (searchOutcome : Except String (Option (List SearchResult))) : String :=
  if truthyStr lastUserText then
    match searchOutcome with
    | Except.ok results => memoryNote none (memoryContextOf results)
    | Except.error msg => memoryNote (some ("Failed to search Neo4j: " ++ msg)) ""
  else
    memoryNote none ""

/-- The role-conditioned base instruction (`systemInstruction` in the route):
`doctor` and `nurse` by equality test, anything else gets the receptionist text. -/
def roleInstruction (role : String) : String :=
  if role == "doctor" then
    "You are an AI assistant for medical doctors.\nProvide only what is asked.\nGive factual, medically accurate, concise answers.\nIf asked for diagnosis, tests, medications, or reasoning — provide them clearly.\nDo not add extra explanations, disclaimers, or suggestions unless explicitly requested.\nIf information is missing, state exactly what is needed.\nNever include unnecessary text."
  else if role == "nurse" then
    "You are an AI assistant for hospital nurses.\nAnswer only the exact question asked.\nProvide concise, practical, clinical nursing information such as medication timing, monitoring steps, wound care, safety alerts, or shift tasks.\nDo not add extra explanation or suggestions unless explicitly requested.\nIf information is incomplete, state what is missing.\nNo unnecessary details."
  else
    "You are an AI assistant for hospital receptionists.\nAnswer only what is asked.\nProvide short, accurate information about appointments, billing, insurance, scheduling, forms, or hospital processes.\nDo not give any medical advice.\nIf the question is medical, redirect by saying: “Please ask a doctor or nurse.”\nNo extra details or suggestions."

/-- `systemPrompt` assembly in the route (template literal). -/
def buildSystemPrompt (systemInstruction patientId role noteText : String) : String :=
  systemInstruction ++ "\n\nCurrent Patient ID (context only): " ++ patientId
    ++ "\nAgent role: " ++ role ++ "\n\n" ++ noteText
    ++ "\n\nImportant:\n- Use the memories above as historical context for this patient.\n- Do NOT hallucinate facts that are not supported by the memories or the current message.\n- If something is unclear or missing, explicitly say what additional information you would need."

/-- A field of the parsed JSON body as the validation code distinguishes it:
absent/undefined, a string, an array of messages, or any other value. -/
inductive JField where
  | absent
  | jstr (s : String)
  | jarr (messages : List UIMessage)
  | other
  deriving DecidableEq, Repr

/-- The inbound request as seen by `POST`: whether `req.json()` succeeded, and the
four fields destructured from the body. -/
structure ReqBody where
  bodyValid : Bool
  messages : JField
  chatId : JField
  role : JField
  patientId : JField
  deriving DecidableEq, Repr

inductive ValidationResult where
  | malformed
  | badMessages
  | badChatId
  | badRole
  | badPatientId
  | ok (messages : List UIMessage) (chatId : String) (role : String) (patientId : String)
  deriving DecidableEq, Repr

def roleAllowed (r : String) : Bool :=
  r == "doctor" || r == "nurse" || r == "receptionist"

/-- The validation sequence at the top of `POST`, in source order: JSON parse,
`messages` an array, `chatId` a truthy string, `role` a string in the allowed set,
`patientId` a truthy string. -/
def validate (b : ReqBody) : ValidationResult :=
  if !b.bodyValid then ValidationResult.malformed
  else match b.messages with
  | JField.jarr ms =>
      match b.chatId with
      | JField.jstr c =>
          if c == "" then ValidationResult.badChatId
          else match b.role with
          | JField.jstr r =>
              if !(roleAllowed r) then ValidationResult.badRole
              else match b.patientId with
              | JField.jstr p =>
                  if p == "" then ValidationResult.badPatientId
                  else ValidationResult.ok ms c r p
              | _ => ValidationResult.badPatientId
          | _ => ValidationResult.badRole
      | _ => ValidationResult.badChatId
  | _ => ValidationResult.badMessages

def errInvalidBody : String := "Invalid request body: must be valid JSON"

def errMessagesField : String := "Missing or invalid 'messages' field (must be an array)"

def errChatIdField : String := "Missing or invalid 'chatId' field (must be a string)"

def errRoleField : String := "Missing or invalid 'role' field (must be doctor, nurse, or receptionist)"

def errPatientIdField : String := "Missing or invalid 'patientId' field (must be a string)"

/-- The 400-response body text produced for each failed validation step. -/
def validationError : ValidationResult → Option String
  | ValidationResult.malformed => some errInvalidBody
  | ValidationResult.badMessages => some errMessagesField
  | ValidationResult.badChatId => some errChatIdField
  | ValidationResult.badRole => some errRoleField
  | ValidationResult.badPatientId => some errPatientIdField
  | ValidationResult.ok _ _ _ _ => none

def isNonemptyStr : JField → Bool
  | JField.jstr s => s != ""
  | _ => false

def isArr : JField → Bool
  | JField.jarr _ => true
  | _ => false

def isAllowedRoleField : JField → Bool
  | JField.jstr s => roleAllowed s
  | _ => false

/-- The requests the handler rejects: unparseable body, `messages` not an array,
`chatId`/`patientId` not truthy strings, or `role` not an allowed role string. -/
def requestMalformed (b : ReqBody) : Bool :=
  !b.bodyValid || !isArr b.messages || !isNonemptyStr b.chatId
    || !isAllowedRoleField b.role || !isNonemptyStr b.patientId

/-- A role+content pair as submitted to `memory.add`. -/
structure MemMsg where
  role : String
  content : String
  deriving DecidableEq, Repr

/-- An external call or externally visible step performed while handling one turn,
in the order the handler performs them. -/
inductive Event where
  | searchCall (query userId agentId : String) (limit : Nat)
  | genStart (system : String) (window : List UIMessage)
  | genDone
  | logCall (conversationId : String)
  | logErrorCaught
  | delivered
  | saveChatCall (chatId : String) (messages : List UIMessage) (role patientId : Option String)
  | saveErrorCaught
  | memoryAddCall (messages : List MemMsg) (userId agentId runId : String)
  | addErrorCaught
  deriving DecidableEq, Repr

/-- Outcomes of the external collaborators for one turn: the memory search either
returns `results` or throws; the generation either streams to completion or fails
fatally; `updatedMessages` is what the stream completion callback receives; the
three post-completion writes may each throw. -/
structure Env where
  searchOutcome : Except String (Option (List SearchResult))
  genFails : Bool
  updatedMessages : List UIMessage
  logFails : Bool
  saveFails : Bool
  addFails : Bool
  deriving Repr

/-- The search step: performed only for a truthy `lastUserText`, with the patient id
as `userId`, the validated role as `agentId` and `limit: 8`. -/
def searchEvents (lastUserText : Option String) (patientId role : String) : List Event :=
  if truthyStr lastUserText then
    [Event.searchCall (lastUserText.getD "") patientId role 8]
  else []

/-- The `writeLog` call of the `streamText` `onFinish` callback; a thrown failure is
caught by the surrounding `try`/`catch`. -/
def logEvents (chatId : String) (fails : Bool) : List Event :=
  Event.logCall chatId :: (if fails then [Event.logErrorCaught] else [])

/-- The `saveChat` call of the stream-response `onFinish` callback; a thrown failure
is caught by the surrounding `try`/`catch`. -/
def saveEvents (chatId : String) (msgs : List UIMessage) (role patientId : String)
    (fails : Bool) : List Event :=
  Event.saveChatCall chatId msgs (some role) (some patientId)
    :: (if fails then [Event.saveErrorCaught] else [])

/-- `recentMessages` in the route: the whole list when it has at most 2 entries,
otherwise `messages.slice(-2)`. -/
def recentWindow (messages : List UIMessage) : List UIMessage :=
  if messages.length ≤ 2 then messages else messages.drop (messages.length - 2)

/-- `mem0Messages` in the route: `updatedMessages.slice(-4)` as role+text pairs. -/
def mem0Window (msgs : List UIMessage) : List MemMsg :=
  (msgs.drop (msgs.length - 4)).map (fun m => { role := m.role, content := uiMessageToText m })

/-- The `memory.add` step: guarded by the same truthy `lastUserText` test as the
search and by the window being non-empty; tagged `userId`/`agentId`/`runId`; a
thrown failure is caught. -/
def addEvents (lastUserText : Option String) (window : List MemMsg)
    (patientId role chatId : String) (fails : Bool) : List Event :=
  if truthyStr lastUserText then
    if window.length > 0 then
      Event.memoryAddCall window patientId role chatId
        :: (if fails then [Event.addErrorCaught] else [])
    else []
  else []

/-- The response returned to the caller. -/
inductive TurnResponse where
  | badRequest (error : String)
  | genError
  | stream
  deriving DecidableEq, Repr

/-- The chat `POST` handler of `app/api/chat/route.ts` as one turn: validation, then
(for a valid turn) search → prompt assembly → generation, and on successful stream
completion the usage log, delivery, transcript upsert and fact-graph submission.
Returns the event sequence performed and the response. -/
def POST (b : ReqBody) (env : Env) : List Event × TurnResponse :=
  match validate b with
  | ValidationResult.malformed => ([], TurnResponse.badRequest errInvalidBody)
  | ValidationResult.badMessages => ([], TurnResponse.badRequest errMessagesField)
  | ValidationResult.badChatId => ([], TurnResponse.badRequest errChatIdField)
  | ValidationResult.badRole => ([], TurnResponse.badRequest errRoleField)
  | ValidationResult.badPatientId => ([], TurnResponse.badRequest errPatientIdField)
  | ValidationResult.ok messages chatId role patientId =>
      let lastUserText := getLastUserText messages
      let note := turnMemoryNote lastUserText env.searchOutcome
      let systemPrompt := buildSystemPrompt (roleInstruction role) patientId role note
      let sEv := searchEvents lastUserText patientId role
      let window := recentWindow messages
      if env.genFails then
        (sEv ++ [Event.genStart systemPrompt window], TurnResponse.genError)
      else
        (sEv ++ [Event.genStart systemPrompt window, Event.genDone]
            ++ logEvents chatId env.logFails
            ++ [Event.delivered]
            ++ saveEvents chatId env.updatedMessages role patientId env.saveFails
            ++ addEvents lastUserText (mem0Window env.updatedMessages) patientId role
                 chatId env.addFails,
          TurnResponse.stream)

/-- The position of an event's kind within the handler's control flow. -/
def phase : Event → Nat
  | Event.searchCall _ _ _ _ => 0
  | Event.genStart _ _ => 1
  | Event.genDone => 2
  | Event.logCall _ => 3
  | Event.logErrorCaught => 3
  | Event.delivered => 4
  | Event.saveChatCall _ _ _ _ => 5
  | Event.saveErrorCaught => 5
  | Event.memoryAddCall _ _ _ _ => 6
  | Event.addErrorCaught => 6

/-- A trace whose events appear in nondecreasing phase order. -/
def PhaseSorted (tr : List Event) : Prop :=
  tr.Pairwise (fun a b => phase a ≤ phase b)

/-- Every event satisfying `p` occurs strictly before every event satisfying `q`. -/
def allBefore (p q : Event → Bool) (tr : List Event) : Prop :=
  ∀ (i j : Nat) (hi : i < tr.length) (hj : j < tr.length),
    p tr[i] = true → q tr[j] = true → i < j

theorem phaseSorted_append {tr1 tr2 : List Event} (k : Nat)
    (h1 : ∀ e ∈ tr1, phase e ≤ k) (h2 : ∀ e ∈ tr2, k ≤ phase e)
    (p1 : PhaseSorted tr1) (p2 : PhaseSorted tr2) : PhaseSorted (tr1 ++ tr2) := by
  unfold PhaseSorted
  rw [List.pairwise_append]
  exact ⟨p1, p2, fun a ha b hb => le_trans (h1 a ha) (h2 b hb)⟩

theorem searchEvents_phase (lut : Option String) (pid role : String) :
    ∀ e ∈ searchEvents lut pid role, phase e = 0 := by
  intro e he
  unfold searchEvents at he
  split at he <;> simp at he
  subst he
  rfl

theorem logEvents_phase (c : String) (f : Bool) :
    ∀ e ∈ logEvents c f, phase e = 3 := by
  intro e he
  unfold logEvents at he
  cases f <;> simp at he
  · subst he
    rfl
  · rcases he with h | h <;> subst h <;> rfl

theorem saveEvents_phase (c : String) (ms : List UIMessage) (r p : String) (f : Bool) :
    ∀ e ∈ saveEvents c ms r p f, phase e = 5 := by
  intro e he
  unfold saveEvents at he
  cases f <;> simp at he
  · subst he
    rfl
  · rcases he with h | h <;> subst h <;> rfl

theorem addEvents_phase (lut : Option String) (w : List MemMsg) (pid role c : String)
    (f : Bool) : ∀ e ∈ addEvents lut w pid role c f, phase e = 6 := by
  intro e he
  unfold addEvents at he
  split at he
  · split at he
    · cases f <;> simp at he
      · subst he
        rfl
      · rcases he with h | h <;> subst h <;> rfl
    · simp at he
  · simp at he

theorem phaseSorted_of_const {l : List Event} {k : Nat} (h : ∀ e ∈ l, phase e = k) :
    PhaseSorted l := by
  induction l with
  | nil => exact List.Pairwise.nil
  | cons x xs ih =>
      constructor
      · intro y hy
        rw [h x (by simp), h y (by simp [hy])]
      · exact ih (fun e he => h e (by simp [he]))

/-- Unfolding equation for `POST` on a request that passes validation. -/
theorem POST_ok_eq (b : ReqBody) (env : Env) {m : List UIMessage} {c r p : String}
    (hv : validate b = ValidationResult.ok m c r p) :
    POST b env =
      (if env.genFails then
        (searchEvents (getLastUserText m) p r
           ++ [Event.genStart (buildSystemPrompt (roleInstruction r) p r
                 (turnMemoryNote (getLastUserText m) env.searchOutcome)) (recentWindow m)],
         TurnResponse.genError)
      else
        (searchEvents (getLastUserText m) p r
           ++ [Event.genStart (buildSystemPrompt (roleInstruction r) p r
                 (turnMemoryNote (getLastUserText m) env.searchOutcome)) (recentWindow m),
               Event.genDone]
           ++ logEvents c env.logFails
           ++ [Event.delivered]
           ++ saveEvents c env.updatedMessages r p env.saveFails
           ++ addEvents (getLastUserText m) (mem0Window env.updatedMessages) p r c
                env.addFails,
         TurnResponse.stream)) := by
  unfold POST
  rw [hv]

/-- Unfolding equation for `POST` on a request that fails validation. -/
theorem POST_bad_eq (b : ReqBody) (env : Env) {msg : String}
    (hv : validationError (validate b) = some msg) :
    POST b env = ([], TurnResponse.badRequest msg) := by
  unfold POST
  cases h : validate b <;> rw [h] at hv <;> simp [validationError] at hv <;>
    simp [hv]

/-- Every trace the handler can produce is phase-sorted. -/
theorem POST_phaseSorted (b : ReqBody) (env : Env) : PhaseSorted (POST b env).1 := by
  cases hv : validate b with
  | ok m c r p =>
      rw [POST_ok_eq b env hv]
      by_cases hg : env.genFails
      · rw [if_pos hg]
        exact phaseSorted_append 1
          (fun e he => by rw [searchEvents_phase _ _ _ e he]; omega)
          (fun e he => by simp at he; subst he; simp [phase])
          (phaseSorted_of_const (searchEvents_phase _ _ _))
          (phaseSorted_of_const (fun e he => by simp at he; subst he; rfl))
      · rw [if_neg hg]
        simp only [List.append_assoc]
        refine phaseSorted_append 1
          (fun e he => by rw [searchEvents_phase _ _ _ e he]; omega)
          ?_ (phaseSorted_of_const (searchEvents_phase _ _ _)) ?_
        · intro e he
          simp at he
          rcases he with h | h | h
          · subst h; simp [phase]
          · subst h; simp [phase]
          · rcases h with h | h | h
            · rw [logEvents_phase _ _ e h]; omega
            · subst h; simp [phase]
            · rcases h with h | h
              · rw [saveEvents_phase _ _ _ _ _ e h]; omega
              · rw [addEvents_phase _ _ _ _ _ _ e h]; omega
        · refine phaseSorted_append 3
            (fun e he => by simp at he; rcases he with h | h <;> subst h <;> simp [phase])
            ?_ ?_ ?_
          · intro e he
            simp at he
            rcases he with h | h
            · rw [logEvents_phase _ _ e h]
            · rcases h with h | h
              · subst h; simp [phase]
              · rcases h with h | h
                · rw [saveEvents_phase _ _ _ _ _ e h]; omega
                · rw [addEvents_phase _ _ _ _ _ _ e h]; omega
          · refine List.Pairwise.cons ?_ (List.Pairwise.cons ?_ List.Pairwise.nil)
            · intro y hy
              simp at hy
              subst hy
              simp [phase]
            · intro y hy
              simp at hy
          · refine phaseSorted_append 4
              (fun e he => by rw [logEvents_phase _ _ e he]; omega)
              ?_ (phaseSorted_of_const (logEvents_phase _ _)) ?_
            · intro e he
              simp at he
              rcases he with h | h
              · subst h; simp [phase]
              · rcases h with h | h
                · rw [saveEvents_phase _ _ _ _ _ e h]; omega
                · rw [addEvents_phase _ _ _ _ _ _ e h]; omega
            · refine phaseSorted_append 5
                (fun e he => by simp at he; subst he; simp [phase])
                ?_ (phaseSorted_of_const (fun e he => by simp at he; subst he; rfl)) ?_
              · intro e he
                simp at he
                rcases he with h | h
                · rw [saveEvents_phase _ _ _ _ _ e h]
                · rw [addEvents_phase _ _ _ _ _ _ e h]; omega
              · exact phaseSorted_append 6
                  (fun e he => by rw [saveEvents_phase _ _ _ _ _ e he]; omega)
                  (fun e he => by rw [addEvents_phase _ _ _ _ _ _ e he])
                  (phaseSorted_of_const (saveEvents_phase _ _ _ _ _))
                  (phaseSorted_of_const (addEvents_phase _ _ _ _ _ _))
  | malformed => rw [POST_bad_eq b env (by rw [hv]; rfl)]; exact List.Pairwise.nil
  | badMessages => rw [POST_bad_eq b env (by rw [hv]; rfl)]; exact List.Pairwise.nil
  | badChatId => rw [POST_bad_eq b env (by rw [hv]; rfl)]; exact List.Pairwise.nil
  | badRole => rw [POST_bad_eq b env (by rw [hv]; rfl)]; exact List.Pairwise.nil
  | badPatientId => rw [POST_bad_eq b env (by rw [hv]; rfl)]; exact List.Pairwise.nil

theorem allBefore_of_phaseSorted {tr : List Event} (hs : PhaseSorted tr)
    (p q : Event → Bool) (hlt : ∀ e e', p e = true → q e' = true → phase e < phase e') :
    allBefore p q tr := by
  intro i j hi hj hp hq
  by_contra hij
  push_neg at hij
  rcases Nat.lt_or_ge j i with hji | hji
  · have hle := (List.pairwise_iff_getElem.mp hs) j i hj hi hji
    exact absurd (hlt _ _ hp hq) (by omega)
  · have hij' : i = j := by omega
    subst hij'
    exact absurd (hlt _ _ hp hq) (by omega)

def isSearchEvent : Event → Bool
  | Event.searchCall _ _ _ _ => true
  | _ => false

def isGenStartEvent : Event → Bool
  | Event.genStart _ _ => true
  | _ => false

def isGenDoneEvent : Event → Bool
  | Event.genDone => true
  | _ => false

def isDeliveredEvent : Event → Bool
  | Event.delivered => true
  | _ => false

/-- The two persistence submissions: the transcript upsert and the fact-graph add. -/
def isPersistEvent : Event → Bool
  | Event.saveChatCall _ _ _ _ => true
  | Event.memoryAddCall _ _ _ _ => true
  | _ => false

theorem mem_searchEvents {e : Event} {lut : Option String} {pid role : String}
    (he : e ∈ searchEvents lut pid role) :
    e = Event.searchCall (lut.getD "") pid role 8 := by
  unfold searchEvents at he
  split at he
  · simpa using he
  · simp at he

/-- C1: within one valid turn, every memory-store search strictly precedes the start
of the generation call, and every transcript upsert and fact-graph submission occurs
strictly after generation completion and strictly after delivery of the streamed
output (in particular, a persistence event can only occur in a trace in which the
generation completed and the stream was delivered). -/
theorem turn_event_ordering (b : ReqBody) (env : Env) (m : List UIMessage)
    (c r p : String) (hv : validate b = ValidationResult.ok m c r p) :
    allBefore isSearchEvent isGenStartEvent (POST b env).1
    ∧ allBefore isGenDoneEvent isPersistEvent (POST b env).1
    ∧ allBefore isDeliveredEvent isPersistEvent (POST b env).1
    ∧ (∀ e, e ∈ (POST b env).1 → isPersistEvent e = true →
        Event.genDone ∈ (POST b env).1 ∧ Event.delivered ∈ (POST b env).1) := by
  refine ⟨?_, ?_, ?_, ?_⟩
  · refine allBefore_of_phaseSorted (POST_phaseSorted b env) _ _ ?_
    intro e e' hp hq
    cases e <;> simp [isSearchEvent] at hp <;> cases e' <;>
      simp [isGenStartEvent] at hq <;> simp [phase]
  · refine allBefore_of_phaseSorted (POST_phaseSorted b env) _ _ ?_
    intro e e' hp hq
    cases e <;> simp [isGenDoneEvent] at hp <;> cases e' <;>
      simp [isPersistEvent] at hq <;> simp [phase]
  · refine allBefore_of_phaseSorted (POST_phaseSorted b env) _ _ ?_
    intro e e' hp hq
    cases e <;> simp [isDeliveredEvent] at hp <;> cases e' <;>
      simp [isPersistEvent] at hq <;> simp [phase]
  · intro e he hp
    rw [POST_ok_eq b env hv] at he ⊢
    by_cases hg : env.genFails
    · rw [if_pos hg] at he
      simp only [List.mem_append] at he
      rcases he with h | h
      · rw [mem_searchEvents h] at hp
        simp [isPersistEvent] at hp
      · simp at h
        rw [h] at hp
        simp [isPersistEvent] at hp
    · rw [if_neg hg]
      constructor <;> simp

/-- The single-user-message example turn of the spec. -/
def sampleMessages : List UIMessage :=
  [{ role := "user", parts := [{ type := "text", text := "What is the dosage for ibuprofen?" }] }]

def sampleBody : ReqBody :=
  { bodyValid := true, messages := JField.jarr sampleMessages, chatId := JField.jstr "c1",
    role := JField.jstr "doctor", patientId := JField.jstr "p1" }

def sampleUpdated : List UIMessage :=
  sampleMessages ++ [{ role := "assistant", parts := [{ type := "text", text := "400mg every 6 hours" }] }]

def sampleEnv : Env :=
  { searchOutcome := Except.ok (some []), genFails := false,
    updatedMessages := sampleUpdated, logFails := false, saveFails := false,
    addFails := false }

/-- C1 witness: the ordering guarantee holds on the concrete example turn. -/
theorem turn_event_ordering_witness :
    validate sampleBody = ValidationResult.ok sampleMessages "c1" "doctor" "p1"
    ∧ allBefore isSearchEvent isGenStartEvent (POST sampleBody sampleEnv).1
    ∧ allBefore isGenDoneEvent isPersistEvent (POST sampleBody sampleEnv).1
    ∧ allBefore isDeliveredEvent isPersistEvent (POST sampleBody sampleEnv).1
    ∧ (Event.genDone ∈ (POST sampleBody sampleEnv).1
        ∧ Event.delivered ∈ (POST sampleBody sampleEnv).1) := by
  have h := turn_event_ordering sampleBody sampleEnv sampleMessages "c1" "doctor" "p1"
    (by decide)
  refine ⟨by decide, h.1, h.2.1, h.2.2.1, h.2.2.2
    (Event.saveChatCall "c1" sampleUpdated (some "doctor") (some "p1")) (by decide)
    (by decide)⟩

theorem addCall_notin_searchEvents (ms : List MemMsg) (u a rn : String)
    (lut : Option String) (pid role : String) :
    Event.memoryAddCall ms u a rn ∉ searchEvents lut pid role := by
  unfold searchEvents
  split <;> simp

theorem addCall_notin_logEvents (ms : List MemMsg) (u a rn : String) (c : String)
    (f : Bool) : Event.memoryAddCall ms u a rn ∉ logEvents c f := by
  unfold logEvents
  cases f <;> simp

theorem addCall_notin_saveEvents (ms : List MemMsg) (u a rn : String) (c : String)
    (msgs : List UIMessage) (r p : String) (f : Bool) :
    Event.memoryAddCall ms u a rn ∉ saveEvents c msgs r p f := by
  unfold saveEvents
  cases f <;> simp

/-- C2: for a turn whose generation completes, the response is the delivered stream
regardless of failures of the transcript write, fact-graph submission or usage-log
append; each such failure is caught at its point of use (the caught-error events
appear in the trace) and never propagated. -/
theorem post_completion_failures_isolated (b : ReqBody) (env : Env)
    (m : List UIMessage) (c r p : String)
    (hv : validate b = ValidationResult.ok m c r p) (hg : env.genFails = false) :
    (POST b env).2 = TurnResponse.stream
    ∧ (env.logFails = true → Event.logErrorCaught ∈ (POST b env).1)
    ∧ (env.saveFails = true → Event.saveErrorCaught ∈ (POST b env).1)
    ∧ (env.addFails = true → ∀ ms u a rn,
        Event.memoryAddCall ms u a rn ∈ (POST b env).1 →
        Event.addErrorCaught ∈ (POST b env).1) := by
  rw [POST_ok_eq b env hv, if_neg (by simp [hg])]
  refine ⟨rfl, ?_, ?_, ?_⟩
  · intro h
    simp [logEvents, h]
  · intro h
    simp [saveEvents, h]
  · intro ha ms u a rn hmem
    simp only [List.append_assoc, List.mem_append] at hmem
    rcases hmem with h | h | h | h | h | h
    · exact absurd h (addCall_notin_searchEvents _ _ _ _ _ _ _)
    · simp at h
    · exact absurd h (addCall_notin_logEvents _ _ _ _ _ _)
    · simp at h
    · exact absurd h (addCall_notin_saveEvents _ _ _ _ _ _ _ _ _)
    · unfold addEvents at h
      split at h
      next ht =>
        split at h
        next hw =>
          simp only [List.append_assoc, List.mem_append]
          right; right; right; right; right
          unfold addEvents
          rw [if_pos ht, if_pos hw, ha]
          simp
        next hw => simp at h
      next ht => simp at h

def sampleEnvAllFail : Env :=
  { searchOutcome := Except.error "ECONNREFUSED", genFails := false,
    updatedMessages := sampleUpdated, logFails := true, saveFails := true,
    addFails := true }

/-- C2 witness: on the example turn with all three post-completion writes failing,
the response is still the stream and every failure is caught. -/
theorem post_completion_failures_isolated_witness :
    validate sampleBody = ValidationResult.ok sampleMessages "c1" "doctor" "p1"
    ∧ sampleEnvAllFail.genFails = false
    ∧ (POST sampleBody sampleEnvAllFail).2 = TurnResponse.stream
    ∧ Event.logErrorCaught ∈ (POST sampleBody sampleEnvAllFail).1
    ∧ Event.saveErrorCaught ∈ (POST sampleBody sampleEnvAllFail).1 := by
  have h := post_completion_failures_isolated sampleBody sampleEnvAllFail
    sampleMessages "c1" "doctor" "p1" (by decide) rfl
  exact ⟨by decide, rfl, h.1, h.2.1 rfl, h.2.2.1 rfl⟩

theorem validate_ok_not_malformed {b : ReqBody} {m : List UIMessage} {c r p : String}
    (hv : validate b = ValidationResult.ok m c r p) : requestMalformed b = false := by
  obtain ⟨bv, bm, bc, br, bp⟩ := b
  cases bv <;> cases bm <;> cases bc <;> cases br <;> cases bp <;>
    simp [validate] at hv <;>
    split_ifs at hv <;>
    simp_all [requestMalformed, isArr, isNonemptyStr, isAllowedRoleField]

/-- C3: a request with an unparseable body, a missing or wrongly shaped `messages`,
`chatId`, `role` or `patientId`, or a role outside the allowed set, yields an
immediate 400 response whose body names the offending field, with an empty event
trace: no search, no generation, no transcript write, no fact write, no log write. -/
theorem invalid_request_rejected (b : ReqBody) (env : Env)
    (hbad : requestMalformed b = true) :
    ∃ msg, validationError (validate b) = some msg
      ∧ POST b env = ([], TurnResponse.badRequest msg)
      ∧ (msg = errInvalidBody ∨ msg = errMessagesField ∨ msg = errChatIdField
          ∨ msg = errRoleField ∨ msg = errPatientIdField) := by
  cases hvr : validate b with
  | ok m c r p =>
      rw [validate_ok_not_malformed hvr] at hbad
      cases hbad
  | malformed =>
      exact ⟨errInvalidBody, rfl,
        POST_bad_eq b env (by rw [hvr]; rfl), Or.inl rfl⟩
  | badMessages =>
      exact ⟨errMessagesField, rfl,
        POST_bad_eq b env (by rw [hvr]; rfl), Or.inr (Or.inl rfl)⟩
  | badChatId =>
      exact ⟨errChatIdField, rfl,
        POST_bad_eq b env (by rw [hvr]; rfl), Or.inr (Or.inr (Or.inl rfl))⟩
  | badRole =>
      exact ⟨errRoleField, rfl,
        POST_bad_eq b env (by rw [hvr]; rfl), Or.inr (Or.inr (Or.inr (Or.inl rfl)))⟩
  | badPatientId =>
      exact ⟨errPatientIdField, rfl,
        POST_bad_eq b env (by rw [hvr]; rfl), Or.inr (Or.inr (Or.inr (Or.inr rfl)))⟩

/-- The spec's validation example: the sample request with `patientId` absent. -/
def samplePatientlessBody : ReqBody :=
  { sampleBody with patientId := JField.absent }

/-- C3 witness: the request missing `patientId` yields the failure response citing
`patientId` and an empty event trace. -/
theorem invalid_request_rejected_witness :
    requestMalformed samplePatientlessBody = true
    ∧ POST samplePatientlessBody sampleEnv =
        ([], TurnResponse.badRequest errPatientIdField) := by
  refine ⟨by decide, ?_⟩
  obtain ⟨msg, h1, h2, h3⟩ := invalid_request_rejected samplePatientlessBody sampleEnv
    (by decide)
  have hmsg : validationError (validate samplePatientlessBody) = some errPatientIdField := by
    decide
  rw [hmsg] at h1
  simp only [Option.some.injEq] at h1
  subst h1
  exact h2

/-- The note is the memory-error marker for some reason text. -/
def IsErrNote (s : String) : Prop := ∃ e, s = errNote e

/-- The note is the formatted fact list for some non-empty snippet text. -/
def IsHistNote (s : String) : Prop := ∃ t, t ≠ "" ∧ s = histNote t

/-- The note is the no-history marker. -/
def IsNoHistNote (s : String) : Prop := s = noHistNote

theorem errNote_head (e : String) : (errNote e).data.head? = some '⚠' := rfl

theorem histNote_head (t : String) : (histNote t).data.head? = some '\n' := rfl

theorem noHistNote_head : noHistNote.data.head? = some '📋' := rfl

theorem errNote_ne_histNote (e t : String) : errNote e ≠ histNote t := by
  intro h
  have h2 : (errNote e).data.head? = (histNote t).data.head? := by rw [h]
  rw [errNote_head, histNote_head] at h2
  exact absurd (Option.some.inj h2) (by decide)

theorem errNote_ne_noHistNote (e : String) : errNote e ≠ noHistNote := by
  intro h
  have h2 : (errNote e).data.head? = noHistNote.data.head? := by rw [h]
  rw [errNote_head, noHistNote_head] at h2
  exact absurd (Option.some.inj h2) (by decide)

theorem histNote_ne_noHistNote (t : String) : histNote t ≠ noHistNote := by
  intro h
  have h2 : (histNote t).data.head? = noHistNote.data.head? := by rw [h]
  rw [histNote_head, noHistNote_head] at h2
  exact absurd (Option.some.inj h2) (by decide)

theorem histNote_ne_empty (t : String) : histNote t ≠ "" := by
  intro h
  have h2 : (histNote t).data.head? = ("" : String).data.head? := by rw [h]
  rw [histNote_head] at h2
  simp at h2

theorem not_err_and_hist (s : String) : ¬(IsErrNote s ∧ IsHistNote s) := by
  rintro ⟨⟨e, he⟩, ⟨t, _, hh⟩⟩
  exact errNote_ne_histNote e t (he.symm.trans hh)

theorem not_err_and_nohist (s : String) : ¬(IsErrNote s ∧ IsNoHistNote s) := by
  rintro ⟨⟨e, he⟩, hh⟩
  exact errNote_ne_noHistNote e (he.symm.trans hh)

theorem not_hist_and_nohist (s : String) : ¬(IsHistNote s ∧ IsNoHistNote s) := by
  rintro ⟨⟨t, _, hh⟩, hn⟩
  exact histNote_ne_noHistNote t (hh.symm.trans hn)

/-- The note is exactly one of: error marker, fact list, no-history marker. -/
def ExactlyOneNote (s : String) : Prop :=
  (IsErrNote s ∨ IsHistNote s ∨ IsNoHistNote s)
  ∧ ¬(IsErrNote s ∧ IsHistNote s) ∧ ¬(IsErrNote s ∧ IsNoHistNote s)
  ∧ ¬(IsHistNote s ∧ IsNoHistNote s)

theorem memoryContextOf_cases (results : Option (List SearchResult)) :
    memoryContextOf results = ""
    ∨ ∃ t, t ≠ "" ∧ memoryContextOf results = histNote t := by
  unfold memoryContextOf
  split
  next h =>
    right
    exact ⟨memorySnippets results, by simpa using h, rfl⟩
  next h => left; rfl

theorem exactlyOneNote_of_shape {s : String}
    (h : IsErrNote s ∨ IsHistNote s ∨ IsNoHistNote s) : ExactlyOneNote s :=
  ⟨h, not_err_and_hist s, not_err_and_nohist s, not_hist_and_nohist s⟩

/-- C4: the memory section of the assembled prompt is exactly one of the formatted
fact list, the no-history marker, and the memory-error marker; prompt assembly never
throws: a failed search degrades to the error marker and the turn still proceeds to
the generation call. -/
theorem memory_note_exactly_one_and_never_aborts :
    (∀ (lut : Option String) (so : Except String (Option (List SearchResult))),
      ExactlyOneNote (turnMemoryNote lut so))
    ∧ (∀ (lut : Option String) (msg : String), truthyStr lut = true →
        turnMemoryNote lut (Except.error msg) =
          errNote ("Failed to search Neo4j: " ++ msg))
    ∧ (∀ (b : ReqBody) (env : Env) (m : List UIMessage) (c r p : String),
        validate b = ValidationResult.ok m c r p →
        Event.genStart
          (buildSystemPrompt (roleInstruction r) p r
            (turnMemoryNote (getLastUserText m) env.searchOutcome))
          (recentWindow m) ∈ (POST b env).1) := by
  refine ⟨?_, ?_, ?_⟩
  · intro lut so
    unfold turnMemoryNote
    cases ht : truthyStr lut with
    | false =>
        refine exactlyOneNote_of_shape (Or.inr (Or.inr ?_))
        simp [memoryNote, IsNoHistNote]
    | true =>
        simp only [eq_self_iff_true, if_true]
        cases so with
        | error msg =>
            dsimp only
            exact exactlyOneNote_of_shape (Or.inl ⟨_, rfl⟩)
        | ok results =>
            dsimp only
            rcases memoryContextOf_cases results with hc | ⟨t, ht0, hc⟩
            · refine exactlyOneNote_of_shape (Or.inr (Or.inr ?_))
              rw [hc]
              simp [memoryNote, IsNoHistNote]
            · refine exactlyOneNote_of_shape (Or.inr (Or.inl ⟨t, ht0, ?_⟩))
              rw [hc]
              simp only [memoryNote]
              rw [if_pos (by simpa using histNote_ne_empty t)]
  · intro lut msg ht
    unfold turnMemoryNote
    rw [if_pos ht]
    rfl
  · intro b env m c r p hv
    rw [POST_ok_eq b env hv]
    by_cases hg : env.genFails
    · rw [if_pos hg]
      simp
    · rw [if_neg hg]
      simp

/-- C4 witness: on a turn with a failing search, the note is the error marker (and is
exactly one of the three shapes), and the example turn still reaches generation. -/
theorem memory_note_exactly_one_and_never_aborts_witness :
    ExactlyOneNote (turnMemoryNote (some "anger") (Except.error "ECONNREFUSED"))
    ∧ truthyStr (some "anger") = true
    ∧ turnMemoryNote (some "anger") (Except.error "ECONNREFUSED") =
        errNote ("Failed to search Neo4j: " ++ "ECONNREFUSED")
    ∧ validate sampleBody = ValidationResult.ok sampleMessages "c1" "doctor" "p1"
    ∧ Event.genStart
        (buildSystemPrompt (roleInstruction "doctor") "p1" "doctor"
          (turnMemoryNote (getLastUserText sampleMessages) sampleEnvAllFail.searchOutcome))
        (recentWindow sampleMessages) ∈ (POST sampleBody sampleEnvAllFail).1 := by
  obtain ⟨h1, h2, h3⟩ := memory_note_exactly_one_and_never_aborts
  exact ⟨h1 (some "anger") (Except.error "ECONNREFUSED"), by decide,
    h2 (some "anger") "ECONNREFUSED" (by decide),
    by decide,
    h3 sampleBody sampleEnvAllFail sampleMessages "c1" "doctor" "p1" (by decide)⟩

/-- One fact as stored by the external fact-graph service, carrying its scoping
tags. -/
structure StoredFact where
  userId : String
  agentId : String
  memory : String
  deriving DecidableEq, Repr

/-- Modelled from the spec: the external fact-graph store (the mem0/Neo4j service of
`lib/mem0.ts`) is not part of this repository's sources; §6 gives its contract as
`search(query, scope) → ranked facts | error` where results are scoped to the given
patient and role and capped at `limit`.  Ranking is kept abstract as the stored
order (the query influences ranking only). -/
def storeSearch (db : List StoredFact) (query userId agentId : String)
    (limit : Nat) : List StoredFact :=
  (db.filter (fun f => f.userId == userId && f.agentId == agentId)).take limit

/-- C5: on a valid turn with extractable user text, the search is invoked with the
turn's patient id as the user scope, the turn's role as the agent scope, and limit
8; under the spec's store contract such a search returns at most 8 facts, all
recorded under that same patient and role. -/
theorem memory_search_scoped (b : ReqBody) (env : Env) (m : List UIMessage)
    (c r p : String) (hv : validate b = ValidationResult.ok m c r p)
    (ht : truthyStr (getLastUserText m) = true) :
    Event.searchCall ((getLastUserText m).getD "") p r 8 ∈ (POST b env).1
    ∧ (∀ (db : List StoredFact) (q : String), (storeSearch db q p r 8).length ≤ 8)
    ∧ (∀ (db : List StoredFact) (q : String) (f : StoredFact),
        f ∈ storeSearch db q p r 8 → f.userId = p ∧ f.agentId = r) := by
  refine ⟨?_, ?_, ?_⟩
  · rw [POST_ok_eq b env hv]
    by_cases hg : env.genFails
    · rw [if_pos hg]
      simp only [List.mem_append]
      left
      unfold searchEvents
      rw [if_pos ht]
      simp
    · rw [if_neg hg]
      simp only [List.append_assoc, List.mem_append]
      left
      unfold searchEvents
      rw [if_pos ht]
      simp
  · intro db q
    unfold storeSearch
    rw [List.length_take]
    omega
  · intro db q f hf
    unfold storeSearch at hf
    have hf2 := List.mem_of_mem_take hf
    have hf3 := List.of_mem_filter hf2
    simp only [Bool.and_eq_true, beq_iff_eq] at hf3
    exact hf3

/-- C5 witness: the example turn searches with `(p1, doctor, 8)`, and a concrete
store search under those tags is within the limit and scoped. -/
theorem memory_search_scoped_witness :
    validate sampleBody = ValidationResult.ok sampleMessages "c1" "doctor" "p1"
    ∧ truthyStr (getLastUserText sampleMessages) = true
    ∧ Event.searchCall ((getLastUserText sampleMessages).getD "") "p1" "doctor" 8 ∈
        (POST sampleBody sampleEnv).1
    ∧ (storeSearch
        [{ userId := "p1", agentId := "doctor", memory := "has anger issues" },
         { userId := "p1", agentId := "receptionist", memory := "owes a copay" },
         { userId := "p2", agentId := "doctor", memory := "is diabetic" }]
        "anger" "p1" "doctor" 8).length ≤ 8 := by
  have h := memory_search_scoped sampleBody sampleEnv sampleMessages "c1" "doctor" "p1"
    (by decide) (by decide)
  exact ⟨by decide, by decide, h.1, h.2.1 _ _⟩

theorem mem0Window_length_le (msgs : List UIMessage) : (mem0Window msgs).length ≤ 4 := by
  unfold mem0Window
  rw [List.length_map, List.length_drop]
  omega

/-- C8: every fact-graph submission of a completed turn carries exactly the trailing
window of at most the last 4 messages of the final sequence, as role+text pairs,
tagged with the turn's patient id (`userId`), role (`agentId`) and conversation id
(`runId`); and on a turn with extractable user text and a non-empty window the
submission is indeed made. -/
theorem fact_writer_trailing_window (b : ReqBody) (env : Env) (m : List UIMessage)
    (c r p : String) (hv : validate b = ValidationResult.ok m c r p)
    (hg : env.genFails = false) :
    (∀ ms u a rn, Event.memoryAddCall ms u a rn ∈ (POST b env).1 →
      ms = mem0Window env.updatedMessages ∧ u = p ∧ a = r ∧ rn = c)
    ∧ (mem0Window env.updatedMessages).length ≤ 4
    ∧ (truthyStr (getLastUserText m) = true → (mem0Window env.updatedMessages).length > 0 →
        Event.memoryAddCall (mem0Window env.updatedMessages) p r c ∈ (POST b env).1) := by
  refine ⟨?_, mem0Window_length_le _, ?_⟩
  · intro ms u a rn hmem
    rw [POST_ok_eq b env hv, if_neg (by simp [hg])] at hmem
    simp only [List.append_assoc, List.mem_append] at hmem
    rcases hmem with h | h | h | h | h | h
    · exact absurd h (addCall_notin_searchEvents _ _ _ _ _ _ _)
    · simp at h
    · exact absurd h (addCall_notin_logEvents _ _ _ _ _ _)
    · simp at h
    · exact absurd h (addCall_notin_saveEvents _ _ _ _ _ _ _ _ _)
    · unfold addEvents at h
      split at h
      · split at h
        · rcases List.mem_cons.mp h with h2 | h2
          · have := Event.memoryAddCall.inj h2
            exact ⟨this.1, this.2.1, this.2.2.1, this.2.2.2⟩
          · cases henv : env.addFails <;> rw [henv] at h2 <;> simp at h2
        · simp at h
      · simp at h
  · intro ht hw
    rw [POST_ok_eq b env hv, if_neg (by simp [hg])]
    simp only [List.append_assoc, List.mem_append]
    right; right; right; right; right
    unfold addEvents
    rw [if_pos ht, if_pos hw]
    simp

/-- C8 witness: on the example turn the submission made is the full 2-message final
sequence as role+text pairs tagged `(p1, doctor, c1)`. -/
theorem fact_writer_trailing_window_witness :
    validate sampleBody = ValidationResult.ok sampleMessages "c1" "doctor" "p1"
    ∧ sampleEnv.genFails = false
    ∧ truthyStr (getLastUserText sampleMessages) = true
    ∧ (mem0Window sampleUpdated).length > 0
    ∧ (mem0Window sampleUpdated).length ≤ 4
    ∧ Event.memoryAddCall (mem0Window sampleUpdated) "p1" "doctor" "c1" ∈
        (POST sampleBody sampleEnv).1 := by
  have h := fact_writer_trailing_window sampleBody sampleEnv sampleMessages
    "c1" "doctor" "p1" (by decide) rfl
  exact ⟨by decide, rfl, by decide, by decide, h.2.1, h.2.2 (by decide) (by decide)⟩

theorem genStart_notin_searchEvents (sp : String) (win : List UIMessage)
    (lut : Option String) (pid role : String) :
    Event.genStart sp win ∉ searchEvents lut pid role := by
  unfold searchEvents
  split <;> simp

theorem genStart_notin_logEvents (sp : String) (win : List UIMessage) (c : String)
    (f : Bool) : Event.genStart sp win ∉ logEvents c f := by
  unfold logEvents
  cases f <;> simp

theorem genStart_notin_saveEvents (sp : String) (win : List UIMessage) (c : String)
    (msgs : List UIMessage) (r p : String) (f : Bool) :
    Event.genStart sp win ∉ saveEvents c msgs r p f := by
  unfold saveEvents
  cases f <;> simp

theorem genStart_notin_addEvents (sp : String) (win : List UIMessage)
    (lut : Option String) (w : List MemMsg) (pid role c : String) (f : Bool) :
    Event.genStart sp win ∉ addEvents lut w pid role c f := by
  unfold addEvents
  split
  · split
    · cases f <;> simp
    · simp
  · simp

/-- C9: the generation call of a valid turn receives exactly `recentWindow m`: the
whole supplied message list when it has at most 2 entries and exactly its last 2
entries otherwise; the window never exceeds 2 messages, and a 1-message list yields
a 1-message window. -/
theorem generation_recent_window (b : ReqBody) (env : Env) (m : List UIMessage)
    (c r p : String) (hv : validate b = ValidationResult.ok m c r p) :
    (∃ sp, Event.genStart sp (recentWindow m) ∈ (POST b env).1)
    ∧ (∀ sp win, Event.genStart sp win ∈ (POST b env).1 → win = recentWindow m)
    ∧ (recentWindow m).length ≤ 2
    ∧ (m.length ≤ 2 → recentWindow m = m)
    ∧ (2 < m.length → recentWindow m = m.drop (m.length - 2)
        ∧ (recentWindow m).length = 2)
    ∧ (m.length = 1 → (recentWindow m).length = 1) := by
  refine ⟨?_, ?_, ?_, ?_, ?_, ?_⟩
  · refine ⟨buildSystemPrompt (roleInstruction r) p r
      (turnMemoryNote (getLastUserText m) env.searchOutcome), ?_⟩
    rw [POST_ok_eq b env hv]
    by_cases hg : env.genFails
    · rw [if_pos hg]
      simp
    · rw [if_neg hg]
      simp
  · intro sp win hmem
    rw [POST_ok_eq b env hv] at hmem
    by_cases hg : env.genFails
    · rw [if_pos hg] at hmem
      simp only [List.mem_append] at hmem
      rcases hmem with h | h
      · exact absurd h (genStart_notin_searchEvents _ _ _ _ _)
      · simp at h
        exact h.2
    · rw [if_neg hg] at hmem
      simp only [List.append_assoc, List.mem_append] at hmem
      rcases hmem with h | h | h | h | h | h
      · exact absurd h (genStart_notin_searchEvents _ _ _ _ _)
      · simp at h
        exact h.2
      · exact absurd h (genStart_notin_logEvents _ _ _ _)
      · simp at h
      · exact absurd h (genStart_notin_saveEvents _ _ _ _ _ _ _)
      · exact absurd h (genStart_notin_addEvents _ _ _ _ _ _ _ _)
  · unfold recentWindow
    split
    next h => omega
    next h =>
      rw [List.length_drop]
      omega
  · intro h
    unfold recentWindow
    rw [if_pos h]
  · intro h
    unfold recentWindow
    rw [if_neg (by omega)]
    refine ⟨rfl, ?_⟩
    rw [List.length_drop]
    omega
  · intro h
    unfold recentWindow
    rw [if_pos (by omega), h]

/-- C9 witness: the example 1-message turn produces a 1-message generation window. -/
theorem generation_recent_window_witness :
    validate sampleBody = ValidationResult.ok sampleMessages "c1" "doctor" "p1"
    ∧ (recentWindow sampleMessages).length ≤ 2
    ∧ sampleMessages.length = 1
    ∧ (recentWindow sampleMessages).length = 1
    ∧ (∃ sp, Event.genStart sp (recentWindow sampleMessages) ∈
        (POST sampleBody sampleEnv).1) := by
  have h := generation_recent_window sampleBody sampleEnv sampleMessages
    "c1" "doctor" "p1" (by decide)
  exact ⟨by decide, h.2.2.1, by decide, h.2.2.2.2.2 (by decide), h.1⟩

theorem addEvents_empty_of_not_truthy (lut : Option String) (w : List MemMsg)
    (pid role c : String) (f : Bool) (ht : truthyStr lut = false) :
    addEvents lut w pid role c f = [] := by
  unfold addEvents
  rw [if_neg (by simp [ht])]

/-- C10: on a completed valid turn whose message list has no extractable user text,
`memory.add` is never invoked, while the transcript upsert and the usage-log append
still run. -/
theorem no_user_text_skips_fact_write (b : ReqBody) (env : Env) (m : List UIMessage)
    (c r p : String) (hv : validate b = ValidationResult.ok m c r p)
    (hg : env.genFails = false) (ht : truthyStr (getLastUserText m) = false) :
    (∀ ms u a rn, Event.memoryAddCall ms u a rn ∉ (POST b env).1)
    ∧ Event.saveChatCall c env.updatedMessages (some r) (some p) ∈ (POST b env).1
    ∧ Event.logCall c ∈ (POST b env).1 := by
  rw [POST_ok_eq b env hv, if_neg (by simp [hg])]
  refine ⟨?_, ?_, ?_⟩
  · intro ms u a rn hmem
    simp only [List.append_assoc, List.mem_append] at hmem
    rcases hmem with h | h | h | h | h | h
    · exact absurd h (addCall_notin_searchEvents _ _ _ _ _ _ _)
    · simp at h
    · exact absurd h (addCall_notin_logEvents _ _ _ _ _ _)
    · simp at h
    · exact absurd h (addCall_notin_saveEvents _ _ _ _ _ _ _ _ _)
    · rw [addEvents_empty_of_not_truthy _ _ _ _ _ _ ht] at h
      simp at h
  · simp [saveEvents]
  · simp [logEvents]

/-- A valid request whose message list is empty (so no extractable user text). -/
def sampleTextlessBody : ReqBody :=
  { sampleBody with messages := JField.jarr [] }

/-- C10 witness: on a completed valid turn with an empty message list, no fact-graph
submission occurs but the transcript write and log append do. -/
theorem no_user_text_skips_fact_write_witness :
    validate sampleTextlessBody = ValidationResult.ok [] "c1" "doctor" "p1"
    ∧ sampleEnv.genFails = false
    ∧ truthyStr (getLastUserText []) = false
    ∧ Event.memoryAddCall (mem0Window sampleEnv.updatedMessages) "p1" "doctor" "c1" ∉
        (POST sampleTextlessBody sampleEnv).1
    ∧ Event.saveChatCall "c1" sampleEnv.updatedMessages (some "doctor") (some "p1") ∈
        (POST sampleTextlessBody sampleEnv).1
    ∧ Event.logCall "c1" ∈ (POST sampleTextlessBody sampleEnv).1 := by
  have h := no_user_text_skips_fact_write sampleTextlessBody sampleEnv []
    "c1" "doctor" "p1" (by decide) rfl (by decide)
  exact ⟨by decide, rfl, by decide, h.1 _ _ _ _, h.2.1, h.2.2⟩
